import Mathlib

/-!
Verification of the python-yarbo client library.

This file gives a shallow embedding, in Lean 4, of the parts of the
python-yarbo source that the specification talks about:

* `src/yarbo/_codec.py` — `encode` / `decode` (zlib-compressed minified JSON
  with a plain-JSON fallback and a raw-hex sentinel);
* `src/yarbo/const.py` — the `Topic` helper (build / parse / leaf);
* `src/yarbo/models.py` — `YarboCommandResult.from_dict` state normalisation;
* `src/yarbo/mqtt.py` — mailbox registration (`create_wait_queue`,
  `wait_for_message`, `release_queue`), the bounded-queue backpressure policy
  (`_enqueue_safe`), and the reconnect notification (`_on_connect` /
  `_on_disconnect`);
* `src/yarbo/local.py` — the `get_controller` handshake and the
  `_on_reconnect` controller-state reset;
* `src/yarbo/discovery.py` — the recommendation assignment at the end of
  `discover()` and `connection_order`.

Python strings are modelled as `List Char` where the code manipulates their
structure (topic strings) and as `String` where only equality matters
(endpoint fields).  Python dynamic values are modelled by the inductive type
`PyVal` (floats are outside the model).  Raised exceptions are modelled as
explicit outcome constructors.
-/

namespace Yarbo

/-! ## Python dynamic values -/

/-- Model of a Python float as far as this embedding needs it: a finite
float is represented by the integer `int()` truncates it to (its fractional
part plays no role anywhere in the embedded code), while the non-finite
floats are kept apart because `int()` treats them specially (`ValueError`
on NaN, `OverflowError` on the infinities). -/
inductive PyFloat where
  | finite : Int → PyFloat
  | inf : PyFloat
  | negInf : PyFloat
  | nan : PyFloat

/-- Model of a Python runtime value as it appears in decoded JSON payloads:
`None`, `bool`, `int`, `str`, `list`, `dict`, `float` (`json.loads` also
produces floats, including infinities for the `Infinity` literals). -/
inductive PyVal where
  | none : PyVal
  | bool : Bool → PyVal
  | int : Int → PyVal
  | str : List Char → PyVal
  | list : List PyVal → PyVal
  | dict : List (List Char × PyVal) → PyVal
  | float : PyFloat → PyVal

/-- A Python dict with string keys, as an association list in insertion
order; lookups take the first matching key (Python keys are unique). -/
abbrev PyDict := List (List Char × PyVal)

/-- Model of Python `d.get(k)` / `k in d`: first value bound to key `k`,
or `Option.none` when the key is absent. -/
def pyGet (d : PyDict) (k : List Char) : Option PyVal :=
  match d with
  | [] => Option.none
  | (k2, v) :: rest => if k2 = k then Option.some v else pyGet rest k

/-- Numeric value of a list of decimal digit characters. -/
def digitsVal (ds : List Char) : Nat :=
  ds.foldl (fun acc c => 10 * acc + (c.toNat - '0'.toNat)) 0

/-- The ASCII characters Python `str.isspace` accepts and `int(str)`
strips: tab, LF, VT, FF, CR, FS, GS, RS, US and space. -/
def pyAsciiSpace (c : Char) : Bool :=
  c = ' ' ∨ c = '\t' ∨ c = '\n' ∨ c = '\r' ∨ c.toNat = 11 ∨ c.toNat = 12 ∨
    (28 ≤ c.toNat ∧ c.toNat ≤ 31)

/-- The continuation of the digit run of `int(str)` after a digit:
further digits, with single underscores allowed only between two digits
(the CPython underscore grammar: `1_000` is accepted, `_1`, `1_`, `1__0`
are `ValueError`).  Returns the digits with the underscores removed. -/
def digitsTail : List Char → Option (List Char)
  | [] => Option.some []
  | '_' :: c :: rest =>
      if c.isDigit then (digitsTail rest).map (fun ds => c :: ds) else Option.none
  | '_' :: [] => Option.none
  | c :: rest =>
      if c.isDigit then (digitsTail rest).map (fun ds => c :: ds) else Option.none

/-- The digit part of `int(str)`: at least one ASCII decimal digit, then
the `digitsTail` grammar. -/
def parseDigits : List Char → Option (List Char)
  | c :: rest => if c.isDigit then (digitsTail rest).map (fun ds => c :: ds) else Option.none
  | [] => Option.none

/-- Model of Python `int(s)` on an all-ASCII `str`: surrounding
`str.isspace` characters, an optional single sign, then decimal digits
with single underscores between digits; anything else raises `ValueError`,
modelled as `Option.none`.  Strings containing non-ASCII characters are
outside this function's scope (see `pyIntOutcome`, which reports them as
unmodelled, since their digit/space classification depends on the Unicode
tables). -/
def pyStrToInt (s : List Char) : Option Int :=
  let t := ((s.dropWhile pyAsciiSpace).reverse.dropWhile pyAsciiSpace).reverse
  match t with
  | '-' :: ds => (parseDigits ds).map (fun l => -(digitsVal l : Int))
  | '+' :: ds => (parseDigits ds).map (fun l => (digitsVal l : Int))
  | ds => (parseDigits ds).map (fun l => (digitsVal l : Int))

/-- Outcome of Python `int(v)`: a returned integer; a raised `ValueError`
or `TypeError` (the two exceptions `from_dict`'s `except` clause catches);
a raised `OverflowError` (float infinities — which that clause does NOT
catch); or behaviour the model does not determine (strings containing
non-ASCII characters). -/
inductive PyIntOutcome where
  | ret : Int → PyIntOutcome
  | valueOrTypeError : PyIntOutcome
  | overflowError : PyIntOutcome
  | unmodelled : PyIntOutcome

/-- Model of Python `int(v)` on a dynamic value: exact on `int`, `0/1` on
`bool`; truncation on finite floats, `ValueError` on NaN, `OverflowError`
on the infinities; string parsing on all-ASCII `str` (undetermined on
other strings); `TypeError` on `None`, `list` and `dict`. -/
def pyIntOutcome : PyVal → PyIntOutcome
  | PyVal.int n => PyIntOutcome.ret n
  | PyVal.bool b => PyIntOutcome.ret (if b then 1 else 0)
  | PyVal.float (PyFloat.finite n) => PyIntOutcome.ret n
  | PyVal.float PyFloat.nan => PyIntOutcome.valueOrTypeError
  | PyVal.float PyFloat.inf => PyIntOutcome.overflowError
  | PyVal.float PyFloat.negInf => PyIntOutcome.overflowError
  | PyVal.str s =>
      if s.all (fun c => c.toNat < 128) then
        match pyStrToInt s with
        | Option.some n => PyIntOutcome.ret n
        | Option.none => PyIntOutcome.valueOrTypeError
      else PyIntOutcome.unmodelled
  | PyVal.none => PyIntOutcome.valueOrTypeError
  | PyVal.list _ => PyIntOutcome.valueOrTypeError
  | PyVal.dict _ => PyIntOutcome.valueOrTypeError

/-- Projection of `pyIntOutcome` to the shape `fromDictState` branches on:
`Option.some n` when `int(v)` returns `n`, `Option.none` when it raises
the caught `ValueError`/`TypeError`.  On `overflowError`/`unmodelled`
inputs the Python call raises uncaught or is undetermined;
`fromDictRaises` and `fromDictUnmodelled` delimit those inputs and no
theorem cites the totalised `fromDictState` there. -/
def pyToInt (v : PyVal) : Option Int :=
  match pyIntOutcome v with
  | PyIntOutcome.ret n => Option.some n
  | _ => Option.none

/-! ## models.py — YarboCommandResult -/

/-- Embedding of `yarbo.models.YarboCommandResult`.  `topic` and `data` keep
the dynamic values found in the payload (the Python dataclass stores them
untyped at runtime). -/
structure YarboCommandResult where
  topic : PyVal
  state : Int
  data : PyVal
  raw : PyDict

/-- Embedding of the `success` property: `self.state == 0`. -/
def YarboCommandResult.success (r : YarboCommandResult) : Bool :=
  r.state == 0

/-- The `state` normalisation inside `YarboCommandResult.from_dict` on
the executions where the call returns: missing key or `None` value → `0`;
a value whose `int()` conversion raises the caught
`ValueError`/`TypeError` → `-1`; a value whose conversion returns `n` →
`n`.  On inputs where the conversion raises `OverflowError` the Python
call raises instead of returning (see `fromDictRaises` and
`from_dict_run`); there, and on unmodelled inputs, this totalised
function's value is not cited by any theorem. -/
def fromDictState (d : PyDict) : Int :=
  match pyGet d "state".data with
  | Option.none => 0
  | Option.some PyVal.none => 0
  | Option.some v =>
      match pyToInt v with
      | Option.some n => n
      | Option.none => -1

/-- Embedding of `YarboCommandResult.from_dict` on the executions where
the call returns (see `from_dict_run` for the raising path). -/
def YarboCommandResult.from_dict (d : PyDict) : YarboCommandResult :=
  { topic := (pyGet d "topic".data).getD (PyVal.str [])
    state := fromDictState d
    data := (pyGet d "data".data).getD (PyVal.dict [])
    raw := d }

/-- Whether `from_dict` raises: the `state` value is present, not `None`,
and `int()` on it raises `OverflowError` (a float infinity), which
`except (ValueError, TypeError)` does not catch. -/
def fromDictRaises (d : PyDict) : Bool :=
  match pyGet d "state".data with
  | Option.none => false
  | Option.some PyVal.none => false
  | Option.some v =>
      match pyIntOutcome v with
      | PyIntOutcome.overflowError => true
      | _ => false

/-- Whether the `state` conversion falls outside the model (a present,
non-`None` value with `pyIntOutcome = unmodelled`). -/
def fromDictUnmodelled (d : PyDict) : Bool :=
  match pyGet d "state".data with
  | Option.none => false
  | Option.some PyVal.none => false
  | Option.some v =>
      match pyIntOutcome v with
      | PyIntOutcome.unmodelled => true
      | _ => false

/-- Observable outcome of calling `YarboCommandResult.from_dict`:
`Option.some` of the result when the call returns, `Option.none` when it
raises (the uncaught `OverflowError` path).  Determined by the model
whenever `fromDictUnmodelled d = false`. -/
def from_dict_run (d : PyDict) : Option YarboCommandResult :=
  if fromDictRaises d then Option.none
  else Option.some (YarboCommandResult.from_dict d)

/-! ## _codec.py — encode / decode -/

/-- Wire bytes. -/
abbrev Bytes := List Nat

/-- Interface of the external libraries `_codec.py` is glued from: `zlib`
and `json`.  `zlibDecompress` returns `Option.none` where Python raises
`zlib.error`; `jsonLoads` returns `Option.none` where Python raises
`json.JSONDecodeError` or `UnicodeDecodeError`; `hex` is `bytes.hex`.
The repository code under verification is the glue in `_codec.py`, not the
libraries themselves, so the libraries are parameters of the embedding. -/
structure CodecLib where
  zlibCompress : Bytes → Bytes
  zlibDecompress : Bytes → Option Bytes
  jsonDumps : PyDict → Bytes
  jsonLoads : Bytes → Option PyVal
  hex : Bytes → List Char

/-- Result of running `decode`: either a returned document, or an uncaught
exception escaping the function. -/
inductive DecodeResult where
  | ok : PyVal → DecodeResult
  | raised : DecodeResult

/-- Embedding of `_codec.encode`: minified-JSON serialise, then
zlib-compress. -/
def encode (L : CodecLib) (payload : PyDict) : Bytes :=
  L.zlibCompress (L.jsonDumps payload)

/-- Embedding of `_codec.decode`.  The first `try` block catches only
`zlib.error`; a JSON parse failure on successfully decompressed bytes is
uncaught and escapes (`DecodeResult.raised`).  On decompression failure the
bytes are parsed directly, and on parse failure there the sentinel
`dict` containing key `_raw` bound to `data[:512].hex()` is returned. -/
def decode (L : CodecLib) (data : Bytes) : DecodeResult :=
  match L.zlibDecompress data with
  | Option.some plain =>
      match L.jsonLoads plain with
      | Option.some v => DecodeResult.ok v
      | Option.none => DecodeResult.raised
  | Option.none =>
      match L.jsonLoads data with
      | Option.some v => DecodeResult.ok v
      | Option.none =>
          DecodeResult.ok (PyVal.dict [("_raw".data, PyVal.str (L.hex (data.take 512)))])

/-- A tiny concrete instance of the library interface used to evaluate the
codec glue on closed inputs.  Compression prepends a marker byte (real zlib
streams likewise start with a fixed header byte), decompression strips it
and fails on anything else; the serialiser/parser pair recognises the single
byte string `[1]` as the empty document.  Like real zlib/json, it admits
byte strings that decompress successfully but do not parse (for real zlib:
`zlib.compress(b"x")` decompresses to `b"x"`, which is not JSON). -/
def toyLib : CodecLib :=
  { zlibCompress := fun b => 120 :: b
    zlibDecompress := fun b =>
      match b with
      | 120 :: rest => Option.some rest
      | _ => Option.none
    jsonDumps := fun _ => [1]
    jsonLoads := fun b => if b = [1] then Option.some (PyVal.dict []) else Option.none
    hex := fun b => (b.map (fun n => Char.ofNat (48 + n % 10))) }

/-! ## const.py — Topic addressing -/

/-- Model of Python `str.split(sep)` (single-character separator): always
returns at least one element; empty segments are kept. -/
def pySplit (sep : Char) : List Char → List (List Char)
  | [] => [[]]
  | c :: rest =>
      match pySplit sep rest with
      | [] => [[]]
      | s :: ss => if c = sep then [] :: s :: ss else (c :: s) :: ss

/-- Topic direction: `app` (publish, `TOPIC_APP_TMPL`) or `device`
(subscribe, `TOPIC_DEVICE_TMPL`). -/
inductive Direction where
  | app : Direction
  | device : Direction

/-- Embedding of `Topic.app` / `Topic.device`: the template
`snowbot/{sn}/{app|device}/{leaf}` instantiated by string formatting. -/
def buildTopic (sn leaf : List Char) (dir : Direction) : List Char :=
  "snowbot/".data ++ sn ++
    (match dir with
     | Direction.app => "/app/".data
     | Direction.device => "/device/".data) ++ leaf

/-- Embedding of `Topic.parse`: split on `/`; if there are at least four
parts and the first is `snowbot`, return parts 1 and 3, else `("", "")`. -/
def parseTopic (topic : List Char) : List Char × List Char :=
  let parts := pySplit '/' topic
  if 4 ≤ parts.length ∧ parts.getD 0 [] = "snowbot".data then
    (parts.getD 1 [], parts.getD 3 [])
  else ([], [])

/-- Embedding of `Topic.leaf`: `topic.rsplit("/", 1)[-1]`, the suffix after
the last `/` (the whole string when there is no `/`). -/
def topicLeaf (topic : List Char) : List Char :=
  ((topic.reverse.takeWhile (fun c => c ≠ '/')).reverse)

/-! ## mqtt.py — MqttTransport -/

/-- Envelope dict pushed by `_on_message` into every registered queue:
`{"topic": full_topic, "payload": decoded_dict}`. -/
structure Envelope where
  topic : List Char
  payload : PyDict

/-- Python equality `payload.get("topic") == command_name` where
`command_name` is a `str`: true exactly when the `topic` field is present,
is a `str`, and has the same characters (a missing field gives `None`,
which is `!=` any string; values of other types are `!=` any string). -/
def payloadTopicIs (payload : PyDict) (c : List Char) : Bool :=
  match pyGet payload "topic".data with
  | Option.some (PyVal.str s) => s = c
  | _ => false

/-- The matching loop inside `wait_for_message`, applied to the envelopes a
mailbox holds when the wait runs (arrivals after the deadline are outside
the model): skip envelopes whose topic leaf differs from `feedback_leaf`;
when `command_name` is given, also skip payloads whose `topic` field is not
that string; return the first surviving payload, or `Option.none` when the
mailbox runs out (the deadline elapses). -/
def drainQueue (feedbackLeaf : List Char) (commandName : Option (List Char)) :
    List Envelope → Option PyDict
  | [] => Option.none
  | e :: rest =>
      if topicLeaf e.topic ≠ feedbackLeaf then drainQueue feedbackLeaf commandName rest
      else
        match commandName with
        | Option.some c =>
            if payloadTopicIs e.payload c then Option.some e.payload
            else drainQueue feedbackLeaf commandName rest
        | Option.none => Option.some e.payload

/-- Model of Python `list.remove(x)` with `ValueError` suppressed
(`contextlib.suppress(ValueError)`): drop the first occurrence of `x`, a
no-op when `x` is absent.  Queues are identified by ids; distinct
`asyncio.Queue` objects are distinct ids. -/
def pyListRemove (l : List Nat) (x : Nat) : List Nat :=
  match l with
  | [] => []
  | y :: rest => if y = x then rest else y :: pyListRemove rest x

/-- Embedding of `create_wait_queue`: allocate a fresh queue id and append
it to `_message_queues`. -/
def create_wait_queue (queues : List Nat) (fresh : Nat) : List Nat × Nat :=
  (queues ++ [fresh], fresh)

/-- Embedding of `release_queue`. -/
def release_queue (queues : List Nat) (q : Nat) : List Nat :=
  pyListRemove queues q

/-- Embedding of the registration effect of `wait_for_message`: when a
pre-registered queue is passed via `_queue` it is used as-is, otherwise a
fresh queue is created and appended; the drain loop then runs over the
queue's contents, and the `finally` block removes the queue from
`_message_queues` on every exit path.  Returns the drained result and the
final `_message_queues`. -/
def wait_for_message (queues : List Nat) (pre : Option Nat) (fresh : Nat)
    (contents : List Envelope) (feedbackLeaf : List Char)
    (commandName : Option (List Char)) : Option PyDict × List Nat :=
  let reg :=
    match pre with
    | Option.some q => (queues, q)
    | Option.none => (queues ++ [fresh], fresh)
  (drainQueue feedbackLeaf commandName contents, pyListRemove reg.1 reg.2)

/-- Model of `asyncio.Queue.full()`: with `maxsize = 0` the queue is never
full, otherwise it is full when it holds at least `maxsize` items. -/
def queueFull (maxsize : Nat) (q : List Envelope) : Bool :=
  decide (0 < maxsize) && decide (maxsize ≤ q.length)

/-- Embedding of `MqttTransport._enqueue_safe`: if the queue is full,
discard the oldest item (`get_nowait`, `QueueEmpty` suppressed); then
append the new envelope (`put_nowait`, `QueueFull` suppressed). -/
def enqueue_safe (maxsize : Nat) (q : List Envelope) (e : Envelope) : List Envelope :=
  let q1 := if queueFull maxsize q then q.drop 1 else q
  if queueFull maxsize q1 then q1 else q1 ++ [e]

/-- The transport state touched by the paho connect/disconnect callbacks. -/
structure MqttState where
  wasConnected : Bool
  connected : Bool

/-! ## local.py — YarboLocalClient -/

/-- The session-layer state owned by `YarboLocalClient`. -/
structure LocalClientState where
  controllerAcquired : Bool

/-- Embedding of `YarboLocalClient._on_reconnect`: reset the controller
flag. -/
def on_reconnect (c : LocalClientState) : LocalClientState :=
  { c with controllerAcquired := false }

/-- Embedding of `MqttTransport._on_connect` plus the registered
`_on_reconnect` callback: on reason code 0 the connected flag is set and,
when the transport had previously been disconnected (`_was_connected`), the
reconnect callbacks run; on any other reason code nothing changes. -/
def on_connect (rc : Int) (t : MqttState) (c : LocalClientState) :
    MqttState × LocalClientState :=
  if rc = 0 then
    ({ t with connected := true }, if t.wasConnected then on_reconnect c else c)
  else (t, c)

/-- Embedding of `MqttTransport._on_disconnect`: record that the next
successful connect is a reconnect, and clear the connected flag. -/
def on_disconnect (t : MqttState) : MqttState :=
  { t with wasConnected := true, connected := false }

/-- Outcome of the `get_controller` coroutine: a returned result, a raised
`YarboNotControllerError` (carrying the rejection state), or a raised
`YarboTimeoutError`. -/
inductive HandshakeOutcome where
  | ok : YarboCommandResult → HandshakeOutcome
  | notController : Int → HandshakeOutcome
  | timedOut : HandshakeOutcome

/-- Embedding of `YarboLocalClient.get_controller` after the publish
succeeds: correlate the `data_feedback` response filtered by command name
`get_controller` over the mailbox contents.  `if msg:` is Python
truthiness, so an empty dict also falls through to the timeout raise.  On a
successful response the controller flag is set and the result returned; on
a rejection `YarboNotControllerError` is raised with the flag untouched; on
timeout `YarboTimeoutError` is raised with the flag untouched. -/
def get_controller (s : LocalClientState) (mailbox : List Envelope) :
    HandshakeOutcome × LocalClientState :=
  match drainQueue "data_feedback".data (Option.some "get_controller".data) mailbox with
  | Option.some m =>
      if m.isEmpty then (HandshakeOutcome.timedOut, s)
      else
        let result := YarboCommandResult.from_dict m
        if result.success then
          (HandshakeOutcome.ok result, { s with controllerAcquired := true })
        else (HandshakeOutcome.notController result.state, s)
  | Option.none => (HandshakeOutcome.timedOut, s)

/-! ## discovery.py — recommendation and connection order -/

/-- Embedding of the `YarboEndpoint` dataclass. -/
structure YarboEndpoint where
  ip : String
  port : Nat
  path : String
  mac : String
  recommended : Bool
  hostname : Option String
  sn : String

/-- A default endpoint value (used only to model the `endpoints[0]`-style
indexing, which in the source is always guarded to be in range). -/
instance : Inhabited YarboEndpoint :=
  ⟨{ ip := "", port := 0, path := "", mac := "", recommended := false,
     hostname := Option.none, sn := "" }⟩

/-- Index of the first list element satisfying `p`, or `Option.none`
(Python `next((i for ...), None)` over the enumeration).  Endpoint objects
at distinct positions are distinct Python objects, so identity tests
(`e is recommended_one`) are modelled by positions. -/
def firstIdxWhere (p : YarboEndpoint → Bool) : List YarboEndpoint → Option Nat
  | [] => Option.none
  | e :: rest =>
      if p e then Option.some 0 else (firstIdxWhere p rest).map (fun i => i + 1)

/-- Whether an endpoint's `path` is `"dc"`. -/
def isDc (e : YarboEndpoint) : Bool :=
  e.path == "dc"

/-- Whether an endpoint's `path` is `"rover"`. -/
def isRover (e : YarboEndpoint) : Bool :=
  e.path == "rover"

/-- Position of `recommended_one` as computed at the end of `discover()`
(lines choosing between the single endpoint, the first DC, or the first
endpoint): `Option.none` exactly on the empty list.  The
`next(..., endpoints[0])` fallback of the DC branch is the `getD 0`. -/
def recommendedIdx (eps : List YarboEndpoint) : Option Nat :=
  if eps.length = 1 then Option.some 0
  else if eps.any isDc && eps.any isRover then
    Option.some ((firstIdxWhere isDc eps).getD 0)
  else if eps.isEmpty then Option.none
  else Option.some 0

/-- The loop `for e in endpoints: e.recommended = e is recommended_one`,
with the chosen object identified by its position `j` and `i` the position
of the current element. -/
def markRecommendedFrom (j i : Nat) : List YarboEndpoint → List YarboEndpoint
  | [] => []
  | e :: rest => { e with recommended := i == j } :: markRecommendedFrom j (i + 1) rest

/-- The recommendation-assignment suffix of `discover()` (everything after
the probe gather): pick `recommended_one` and set each endpoint's
`recommended` flag to whether it is that object. -/
def assignRecommended (eps : List YarboEndpoint) : List YarboEndpoint :=
  match recommendedIdx eps with
  | Option.some j => markRecommendedFrom j 0 eps
  | Option.none => eps

/-- Number of endpoints flagged `recommended` in a list. -/
def countRecommended (eps : List YarboEndpoint) : Nat :=
  eps.countP (fun e => e.recommended)

/-- Embedding of `connection_order`: if no endpoint is recommended, return
the list unchanged; otherwise return the recommended endpoint (`next(...)`,
i.e. the first one flagged) followed by every other element in order
(`e is not recommended` excludes exactly that object, i.e. that
position). -/
def connection_order (eps : List YarboEndpoint) : List YarboEndpoint :=
  match firstIdxWhere (fun e => e.recommended) eps with
  | Option.none => eps
  | Option.some j => eps.getD j default :: eps.eraseIdx j

/-! ## Helper lemmas -/

/-- Removing a freshly appended id that was not registered before restores
the original registration list. -/
theorem pyListRemove_append (l : List Nat) (x : Nat) (h : x ∉ l) :
    pyListRemove (l ++ [x]) x = l := by
  induction l with
  | nil => simp [pyListRemove]
  | cons y rest ih =>
      have hy : y ≠ x := fun e => h (e ▸ List.mem_cons_self y rest)
      have hrest : x ∉ rest := fun hm => h (List.mem_cons_of_mem y hm)
      simp [pyListRemove, hy, ih hrest]

/-- The `state` normalisation of `from_dict` on a present, non-`None`
value matches the result of the modelled `int(...)` conversion. -/
theorem fromDictState_of_toInt (d : PyDict) (v : PyVal)
    (h : pyGet d "state".data = Option.some v) (hv : v ≠ PyVal.none) :
    fromDictState d =
      (match pyToInt v with
       | Option.some n => n
       | Option.none => -1) := by
  unfold fromDictState
  rw [h]
  cases v with
  | none => exact absurd rfl hv
  | bool b => rfl
  | int n => rfl
  | str s => rfl
  | list xs => rfl
  | dict kvs => rfl
  | float f => rfl

/-! ## Claim theorems -/

/-- C2: for every session state with the controller flag true, delivery of
the transport reconnect notification (the `_on_reconnect` callback run by
`_on_connect` after a disconnect-then-reconnect) resets the flag to
false. -/
theorem reconnect_resets_controller (t : MqttState) (c : LocalClientState)
    (h : c.controllerAcquired = true) :
    ((on_connect 0 (on_disconnect t) c).2).controllerAcquired = false := by
  simp [on_connect, on_disconnect, on_reconnect]

/-- Witness for C2 at a concrete connected-then-dropped transport state. -/
theorem reconnect_resets_controller_witness :
    ((on_connect 0 (on_disconnect ⟨false, true⟩) ⟨true⟩).2).controllerAcquired = false :=
  reconnect_resets_controller ⟨false, true⟩ ⟨true⟩ rfl

/-- C9: `_enqueue_safe` on a full mailbox evicts the oldest entry and
appends the newest; on a non-full mailbox it simply appends; the queue
never exceeds its bound and the newest envelope is always the last entry. -/
theorem enqueue_safe_policy (maxsize : Nat) (q : List Envelope) (e : Envelope)
    (hpos : 1 ≤ maxsize) (hbound : q.length ≤ maxsize) :
    (q.length = maxsize → enqueue_safe maxsize q e = q.drop 1 ++ [e]) ∧
    (q.length < maxsize → enqueue_safe maxsize q e = q ++ [e]) ∧
    (enqueue_safe maxsize q e).length ≤ maxsize ∧
    (enqueue_safe maxsize q e).getLast? = Option.some e := by
  rcases Nat.lt_or_eq_of_le hbound with hlt | heq
  · have hfull : queueFull maxsize q = false := by
      simp only [queueFull, Bool.and_eq_false_iff, decide_eq_false_iff_not, not_lt, not_le]
      omega
    have hres : enqueue_safe maxsize q e = q ++ [e] := by
      simp [enqueue_safe, hfull]
    refine ⟨fun h => absurd h (Nat.ne_of_lt hlt), fun _ => hres, ?_, ?_⟩
    · rw [hres]; simp only [List.length_append, List.length_singleton]; omega
    · rw [hres]; exact List.getLast?_concat q
  · have hfull : queueFull maxsize q = true := by
      simp only [queueFull, Bool.and_eq_true, decide_eq_true_eq]
      omega
    have hfull2 : queueFull maxsize q.tail = false := by
      simp only [queueFull, Bool.and_eq_false_iff, decide_eq_false_iff_not, not_lt, not_le,
        List.length_tail]
      omega
    have hres : enqueue_safe maxsize q e = q.drop 1 ++ [e] := by
      simp [enqueue_safe, hfull, hfull2, List.drop_one]
    refine ⟨fun _ => hres, fun h => absurd heq (Nat.ne_of_lt h), ?_, ?_⟩
    · rw [hres]; simp only [List.length_append, List.length_singleton, List.length_drop]; omega
    · rw [hres]; exact List.getLast?_concat _

/-- Witness for C9: a queue of bound 2 holding 2 envelopes drops its oldest
entry to admit the newest. -/
theorem enqueue_safe_policy_witness :
    enqueue_safe 2 [⟨"a".data, []⟩, ⟨"b".data, []⟩] ⟨"c".data, []⟩ =
      [⟨"a".data, []⟩, ⟨"b".data, []⟩].drop 1 ++ [⟨"c".data, []⟩] :=
  (enqueue_safe_policy 2 [⟨"a".data, []⟩, ⟨"b".data, []⟩] ⟨"c".data, []⟩
    (by decide) (by decide)).1 rfl

/-- The raise test of `from_dict` on a present, non-`None` state value
matches the `int(...)` outcome of that value. -/
theorem fromDictRaises_of_outcome (d : PyDict) (v : PyVal)
    (h : pyGet d "state".data = Option.some v) (hv : v ≠ PyVal.none) :
    fromDictRaises d =
      (match pyIntOutcome v with
       | PyIntOutcome.overflowError => true
       | _ => false) := by
  unfold fromDictRaises
  rw [h]
  cases v with
  | none => exact absurd rfl hv
  | bool b => rfl
  | int n => rfl
  | str s => rfl
  | list xs => rfl
  | dict kvs => rfl
  | float f => rfl

/-- C10 counterexample: a `state` value of JSON `Infinity` (a float
infinity, which `json.loads` accepts) makes `int()` raise
`OverflowError`, not caught by `except (ValueError, TypeError)` — so
`from_dict` raises instead of producing the `state = -1` / `success =
False` result the claim asserts for unconvertible values. -/
theorem from_dict_overflow_counterexample :
    from_dict_run [("state".data, PyVal.float PyFloat.inf)] = Option.none := rfl

/-- C10 amended: `from_dict` normalises the state code on every payload
whose conversion the model determines: a missing `state` key or a `None`
value gives state `0` and `success = True` (so an acknowledgement that
omits the state field is reported as a success); a value on which `int()`
raises the caught `ValueError`/`TypeError` gives state `-1` and `success
= False`; a value that `int()` converts gives that integer as the state;
but a value on which `int()` raises `OverflowError` (a float infinity)
makes `from_dict` raise instead of returning a result. -/
theorem from_dict_state_normalization (d : PyDict) :
    (pyGet d "state".data = Option.none →
      from_dict_run d = Option.some (YarboCommandResult.from_dict d) ∧
      (YarboCommandResult.from_dict d).state = 0 ∧
      (YarboCommandResult.from_dict d).success = true) ∧
    (pyGet d "state".data = Option.some PyVal.none →
      from_dict_run d = Option.some (YarboCommandResult.from_dict d) ∧
      (YarboCommandResult.from_dict d).state = 0 ∧
      (YarboCommandResult.from_dict d).success = true) ∧
    (∀ v, pyGet d "state".data = Option.some v → v ≠ PyVal.none →
      pyIntOutcome v = PyIntOutcome.valueOrTypeError →
      from_dict_run d = Option.some (YarboCommandResult.from_dict d) ∧
      (YarboCommandResult.from_dict d).state = -1 ∧
      (YarboCommandResult.from_dict d).success = false) ∧
    (∀ v n, pyGet d "state".data = Option.some v → v ≠ PyVal.none →
      pyIntOutcome v = PyIntOutcome.ret n →
      from_dict_run d = Option.some (YarboCommandResult.from_dict d) ∧
      (YarboCommandResult.from_dict d).state = n) ∧
    (∀ v, pyGet d "state".data = Option.some v →
      pyIntOutcome v = PyIntOutcome.overflowError →
      from_dict_run d = Option.none) := by
  have hstate : ∀ k : Int, fromDictState d = k →
      (YarboCommandResult.from_dict d).state = k := fun k hk => hk
  have hsucc : ∀ k : Int, fromDictState d = k →
      (YarboCommandResult.from_dict d).success = (k == 0) := by
    intro k hk
    show (fromDictState d == 0) = (k == 0)
    rw [hk]
  refine ⟨?_, ?_, ?_, ?_, ?_⟩
  · intro h
    have h0 : fromDictState d = 0 := by unfold fromDictState; rw [h]
    have hr : fromDictRaises d = false := by unfold fromDictRaises; rw [h]
    exact ⟨by simp [from_dict_run, hr], hstate 0 h0, hsucc 0 h0⟩
  · intro h
    have h0 : fromDictState d = 0 := by unfold fromDictState; rw [h]
    have hr : fromDictRaises d = false := by unfold fromDictRaises; rw [h]
    exact ⟨by simp [from_dict_run, hr], hstate 0 h0, hsucc 0 h0⟩
  · intro v h hv ho
    have hti : pyToInt v = Option.none := by unfold pyToInt; rw [ho]
    have h1 : fromDictState d = -1 := by
      rw [fromDictState_of_toInt d v h hv, hti]
    have hr : fromDictRaises d = false := by
      rw [fromDictRaises_of_outcome d v h hv, ho]
    exact ⟨by simp [from_dict_run, hr], hstate (-1) h1, hsucc (-1) h1⟩
  · intro v n h hv ho
    have hti : pyToInt v = Option.some n := by unfold pyToInt; rw [ho]
    have h1 : fromDictState d = n := by
      rw [fromDictState_of_toInt d v h hv, hti]
    have hr : fromDictRaises d = false := by
      rw [fromDictRaises_of_outcome d v h hv, ho]
    exact ⟨by simp [from_dict_run, hr], hstate n h1⟩
  · intro v h ho
    have hv : v ≠ PyVal.none := by
      intro e
      rw [e] at ho
      exact PyIntOutcome.noConfusion ho
    have hr : fromDictRaises d = true := by
      rw [fromDictRaises_of_outcome d v h hv, ho]
    simp [from_dict_run, hr]

/-- Witness for C10 (amended): underscore-grouped digits convert exactly
as Python does (`int("1_000") = 1000`), so `from_dict` returns a result
with that state. -/
theorem from_dict_state_normalization_witness :
    from_dict_run [("state".data, PyVal.str "1_000".data)] =
      Option.some (YarboCommandResult.from_dict [("state".data, PyVal.str "1_000".data)]) ∧
    (YarboCommandResult.from_dict [("state".data, PyVal.str "1_000".data)]).state = 1000 :=
  (from_dict_state_normalization [("state".data, PyVal.str "1_000".data)]).2.2.2.1
    (PyVal.str "1_000".data) 1000 rfl (by intro h; cases h) rfl

/-- C5: after `wait_for_message` returns — with a pre-registered queue from
`create_wait_queue` or with its internally created queue, and on either
outcome of the drain — the mailbox is no longer registered: the registered
list (hence its length) is exactly what it was before the registration. -/
theorem wait_for_message_deregisters (queues : List Nat) (fresh : Nat)
    (contents : List Envelope) (leaf : List Char) (cmd : Option (List Char))
    (hfresh : fresh ∉ queues) :
    (wait_for_message (create_wait_queue queues fresh).1
        (Option.some (create_wait_queue queues fresh).2) fresh contents leaf cmd).2
      = queues ∧
    (wait_for_message queues Option.none fresh contents leaf cmd).2 = queues ∧
    ((wait_for_message (create_wait_queue queues fresh).1
        (Option.some (create_wait_queue queues fresh).2) fresh contents leaf cmd).2).length
      = queues.length := by
  have h := pyListRemove_append queues fresh hfresh
  refine ⟨?_, ?_, ?_⟩ <;> simp [wait_for_message, create_wait_queue, h]

/-- Witness for C5 on a concrete transport with two other registered
mailboxes and an empty drain (timeout outcome). -/
theorem wait_for_message_deregisters_witness :
    (wait_for_message (create_wait_queue [1, 2] 3).1
        (Option.some (create_wait_queue [1, 2] 3).2) 3 [] "data_feedback".data
        Option.none).2 = [1, 2] :=
  (wait_for_message_deregisters [1, 2] 3 [] "data_feedback".data Option.none (by decide)).1

/-- When the filtered drain returns a payload, that payload passed the
command-name filter. -/
theorem drainQueue_some_matches (leaf c : List Char) :
    ∀ (mb : List Envelope) (m : PyDict),
      drainQueue leaf (Option.some c) mb = Option.some m → payloadTopicIs m c = true := by
  intro mb
  induction mb with
  | nil => intro m h; simp [drainQueue] at h
  | cons e rest ih =>
      intro m h
      simp only [drainQueue] at h
      split_ifs at h with h1 h2
      · exact ih m h
      · cases h; exact h2
      · exact ih m h

/-- A payload that passed the command-name filter contains a `topic` key,
so it is a non-empty dict (Python truthiness). -/
theorem payloadTopicIs_ne_nil (m : PyDict) (c : List Char)
    (h : payloadTopicIs m c = true) : m.isEmpty = false := by
  cases m with
  | nil => simp [payloadTopicIs, pyGet] at h
  | cons kv rest => rfl

/-- C1: `get_controller`, starting not acquired: a matching `data_feedback`
response with state code 0 sets the controller flag and returns the result
with `success = true`; a matching response with a nonzero state code raises
`YarboNotControllerError` and leaves the flag false; no matching response
within the timeout raises `YarboTimeoutError` and leaves the flag false. -/
theorem get_controller_cases (mailbox : List Envelope) :
    (∀ m n, drainQueue "data_feedback".data (Option.some "get_controller".data) mailbox
        = Option.some m →
      pyGet m "state".data = Option.some (PyVal.int n) →
      (n = 0 →
        get_controller ⟨false⟩ mailbox =
          (HandshakeOutcome.ok (YarboCommandResult.from_dict m), ⟨true⟩) ∧
        (YarboCommandResult.from_dict m).success = true) ∧
      (n ≠ 0 →
        get_controller ⟨false⟩ mailbox = (HandshakeOutcome.notController n, ⟨false⟩))) ∧
    (drainQueue "data_feedback".data (Option.some "get_controller".data) mailbox
        = Option.none →
      get_controller ⟨false⟩ mailbox = (HandshakeOutcome.timedOut, ⟨false⟩)) := by
  constructor
  · intro m n hdrain hstate
    have hmatch := drainQueue_some_matches _ _ mailbox m hdrain
    have hne := payloadTopicIs_ne_nil m _ hmatch
    have hstate' : (YarboCommandResult.from_dict m).state = n := by
      show fromDictState m = n
      rw [fromDictState_of_toInt m (PyVal.int n) hstate (by intro h; cases h)]
      rfl
    constructor
    · intro hn0
      have hsucc : (YarboCommandResult.from_dict m).success = true := by
        simp [YarboCommandResult.success, hstate', hn0]
      refine ⟨?_, hsucc⟩
      simp [get_controller, hdrain, hne, hsucc]
    · intro hn0
      have hsucc : (YarboCommandResult.from_dict m).success = false := by
        simp [YarboCommandResult.success, hstate', hn0]
      simp [get_controller, hdrain, hne, hsucc, hstate']
  · intro hdrain
    simp [get_controller, hdrain]

/-- Witness for C1: a single matching envelope with state 0 produces the
success outcome and sets the controller flag. -/
theorem get_controller_cases_witness :
    get_controller ⟨false⟩
      [⟨"snowbot/SN77/device/data_feedback".data,
        [("topic".data, PyVal.str "get_controller".data), ("state".data, PyVal.int 0)]⟩] =
      (HandshakeOutcome.ok (YarboCommandResult.from_dict
        [("topic".data, PyVal.str "get_controller".data), ("state".data, PyVal.int 0)]),
       ⟨true⟩) :=
  (((get_controller_cases
      [⟨"snowbot/SN77/device/data_feedback".data,
        [("topic".data, PyVal.str "get_controller".data), ("state".data, PyVal.int 0)]⟩]).1
    _ 0 rfl rfl).1 rfl).1

/-- C3 counterexample: a byte string that decompresses successfully but
whose decompressed bytes are not valid JSON makes `decode` raise — the
first `try` block only catches `zlib.error`, so the JSON parse error
escapes (real-world instance: `zlib.compress(b"x")`). -/
theorem decode_can_raise_counterexample :
    decode toyLib [120, 5] = DecodeResult.raised := rfl

/-- C3 amended: whenever decompression fails, `decode` never raises — it
parses the bytes directly as JSON, and on total failure returns the
sentinel document tagged with the hex rendering of (the first 512 of) the
raw bytes.  (When decompression succeeds and the decompressed bytes fail to
parse, the parse error propagates.) -/
theorem decode_decompress_failure_never_raises (L : CodecLib) (data : Bytes)
    (h : L.zlibDecompress data = Option.none) :
    (∀ v, L.jsonLoads data = Option.some v → decode L data = DecodeResult.ok v) ∧
    (L.jsonLoads data = Option.none →
      decode L data =
        DecodeResult.ok (PyVal.dict [("_raw".data, PyVal.str (L.hex (data.take 512)))])) ∧
    decode L data ≠ DecodeResult.raised := by
  unfold decode
  rw [h]
  cases hj : L.jsonLoads data with
  | none =>
      refine ⟨?_, fun _ => rfl, by simp⟩
      intro v hv
      exact Option.noConfusion hv
  | some v =>
      refine ⟨?_, ?_, by simp⟩
      · intro w hw
        injection hw with hvw
        rw [hvw]
      · intro hn
        exact Option.noConfusion hn

/-- Witness for C3 (amended) on garbage bytes: the tagged raw-fallback
document is returned. -/
theorem decode_decompress_failure_never_raises_witness :
    decode toyLib [9] =
      DecodeResult.ok (PyVal.dict [("_raw".data, PyVal.str (toyLib.hex ([9].take 512)))]) :=
  (decode_decompress_failure_never_raises toyLib [9] rfl).2.1 rfl

/-- C4: `decode (encode d) = d` for every JSON-representable dict `d`,
given the library contracts at `d`: zlib decompression inverts compression
on the serialised bytes, and JSON parsing inverts minified serialisation of
`d`. -/
theorem decode_encode_roundtrip (L : CodecLib) (d : PyDict)
    (hz : L.zlibDecompress (L.zlibCompress (L.jsonDumps d)) = Option.some (L.jsonDumps d))
    (hj : L.jsonLoads (L.jsonDumps d) = Option.some (PyVal.dict d)) :
    decode L (encode L d) = DecodeResult.ok (PyVal.dict d) := by
  simp only [decode, encode, hz, hj]

/-- Witness for C4 at the empty document. -/
theorem decode_encode_roundtrip_witness :
    decode toyLib (encode toyLib []) = DecodeResult.ok (PyVal.dict []) :=
  decode_encode_roundtrip toyLib [] rfl rfl

/-- A split never yields the empty list of parts. -/
theorem pySplit_ne_nil (sep : Char) (l : List Char) : pySplit sep l ≠ [] := by
  cases l with
  | nil => simp [pySplit]
  | cons c rest =>
      simp only [pySplit]
      cases pySplit sep rest with
      | nil => simp
      | cons s ss => by_cases hc : c = sep <;> simp [hc]

/-- Splitting a string that does not contain the separator yields the
string as the single part. -/
theorem pySplit_no_sep (sep : Char) (l : List Char) (h : sep ∉ l) :
    pySplit sep l = [l] := by
  induction l with
  | nil => rfl
  | cons c rest ih =>
      have hc : c ≠ sep := fun e => h (e ▸ List.mem_cons_self c rest)
      have hrest : sep ∉ rest := fun hm => h (List.mem_cons_of_mem c hm)
      simp [pySplit, ih hrest, hc]

/-- Splitting at the first separator after a separator-free segment peels
off that segment. -/
theorem pySplit_append (sep : Char) (xs ys : List Char) (h : sep ∉ xs) :
    pySplit sep (xs ++ sep :: ys) = xs :: pySplit sep ys := by
  induction xs with
  | nil =>
      simp only [List.nil_append, pySplit]
      cases hr : pySplit sep ys with
      | nil => exact absurd hr (pySplit_ne_nil sep ys)
      | cons s ss => simp
  | cons c xs ih =>
      have hc : c ≠ sep := fun e => h (e ▸ List.mem_cons_self c xs)
      have hxs : sep ∉ xs := fun hm => h (List.mem_cons_of_mem c hm)
      rw [List.cons_append]
      show (match pySplit sep (xs ++ sep :: ys) with
            | [] => [[]]
            | s :: ss => if c = sep then [] :: s :: ss else (c :: s) :: ss)
          = (c :: xs) :: pySplit sep ys
      rw [ih hxs]
      simp [hc]

/-- C8 counterexample: with a serial containing `/`, parsing the built
topic does not recover `(sn, leaf)` — the claim as stated (all non-empty
serials and leaves) fails. -/
theorem topic_parse_build_counterexample :
    parseTopic (buildTopic "a/b".data "c".data Direction.app) ≠ ("a/b".data, "c".data) := by
  decide

/-- C8 amended: for all non-empty `sn` and `leaf` that do not contain the
topic separator `/`, and for both directions, `Topic.parse` applied to the
built topic returns exactly `(sn, leaf)`. -/
theorem topic_parse_build (sn leaf : List Char) (dir : Direction)
    (hsn0 : sn ≠ []) (hleaf0 : leaf ≠ []) (hsn : '/' ∉ sn) (hleaf : '/' ∉ leaf) :
    parseTopic (buildTopic sn leaf dir) = (sn, leaf) := by
  cases dir with
  | app =>
      have hb : buildTopic sn leaf Direction.app
          = "snowbot".data ++ '/' :: (sn ++ '/' :: ("app".data ++ '/' :: leaf)) := by
        show "snowbot/".data ++ sn ++ "/app/".data ++ leaf
            = "snowbot".data ++ '/' :: (sn ++ '/' :: ("app".data ++ '/' :: leaf))
        rw [List.append_assoc, List.append_assoc]
        rfl
      have hsplit : pySplit '/' (buildTopic sn leaf Direction.app)
          = ["snowbot".data, sn, "app".data, leaf] := by
        rw [hb, pySplit_append '/' "snowbot".data _ (by decide),
          pySplit_append '/' sn _ hsn,
          pySplit_append '/' "app".data _ (by decide),
          pySplit_no_sep '/' leaf hleaf]
      simp [parseTopic, hsplit]
  | device =>
      have hb : buildTopic sn leaf Direction.device
          = "snowbot".data ++ '/' :: (sn ++ '/' :: ("device".data ++ '/' :: leaf)) := by
        show "snowbot/".data ++ sn ++ "/device/".data ++ leaf
            = "snowbot".data ++ '/' :: (sn ++ '/' :: ("device".data ++ '/' :: leaf))
        rw [List.append_assoc, List.append_assoc]
        rfl
      have hsplit : pySplit '/' (buildTopic sn leaf Direction.device)
          = ["snowbot".data, sn, "device".data, leaf] := by
        rw [hb, pySplit_append '/' "snowbot".data _ (by decide),
          pySplit_append '/' sn _ hsn,
          pySplit_append '/' "device".data _ (by decide),
          pySplit_no_sep '/' leaf hleaf]
      simp [parseTopic, hsplit]

/-- Witness for C8 (amended) on a concrete serial and leaf. -/
theorem topic_parse_build_witness :
    parseTopic (buildTopic "SN77".data "heart_beat".data Direction.device)
      = ("SN77".data, "heart_beat".data) :=
  topic_parse_build "SN77".data "heart_beat".data Direction.device
    (by decide) (by decide) (by decide) (by decide)

/-- Counting the recommended flags set by the marking loop: exactly one
when the chosen position falls inside the list, zero otherwise. -/
theorem countRecommended_markFrom (j : Nat) (l : List YarboEndpoint) :
    ∀ i, countRecommended (markRecommendedFrom j i l) =
      if i ≤ j ∧ j < i + l.length then 1 else 0 := by
  induction l with
  | nil =>
      intro i
      have hn : ¬(i ≤ j ∧ j < i) := by omega
      simp [markRecommendedFrom, countRecommended, hn]
  | cons e rest ih =>
      intro i
      simp only [markRecommendedFrom, countRecommended, List.countP_cons] at *
      rw [ih (i + 1)]
      simp only [List.length_cons, beq_iff_eq]
      split_ifs <;> omega

/-- When some element satisfies the predicate, `firstIdxWhere` finds an
in-range index. -/
theorem firstIdxWhere_isSome_of_exists (p : YarboEndpoint → Bool) :
    ∀ l : List YarboEndpoint, (∃ e ∈ l, p e = true) →
      ∃ j, firstIdxWhere p l = Option.some j ∧ j < l.length := by
  intro l
  induction l with
  | nil => rintro ⟨e, he, _⟩; cases he
  | cons a rest ih =>
      rintro ⟨e, he, hpe⟩
      by_cases ha : p a
      · exact ⟨0, by simp [firstIdxWhere, ha], by simp⟩
      · rcases List.mem_cons.mp he with rfl | hrest
        · exact absurd hpe ha
        · obtain ⟨j, hj, hlt⟩ := ih ⟨e, hrest, hpe⟩
          exact ⟨j + 1, by simp [firstIdxWhere, ha, hj], by simpa using Nat.succ_lt_succ hlt⟩

/-- An index found by `firstIdxWhere` is in range and points at an element
satisfying the predicate. -/
theorem firstIdxWhere_some (p : YarboEndpoint → Bool) :
    ∀ (l : List YarboEndpoint) (j : Nat), firstIdxWhere p l = Option.some j →
      j < l.length ∧ p (l.getD j default) = true := by
  intro l
  induction l with
  | nil => intro j h; simp [firstIdxWhere] at h
  | cons a rest ih =>
      intro j h
      simp only [firstIdxWhere] at h
      by_cases ha : p a
      · rw [if_pos ha] at h
        cases h
        exact ⟨by simp, by simpa using ha⟩
      · rw [if_neg ha] at h
        cases hr : firstIdxWhere p rest with
        | none => rw [hr] at h; cases h
        | some k =>
            rw [hr] at h
            simp at h
            subst h
            obtain ⟨hlt, hp⟩ := ih k hr
            exact ⟨by simpa using Nat.succ_lt_succ hlt, by simpa using hp⟩

/-- On a non-empty endpoint list the recommendation choice lands on an
in-range position. -/
theorem recommendedIdx_some (eps : List YarboEndpoint) (h : eps ≠ []) :
    ∃ j, recommendedIdx eps = Option.some j ∧ j < eps.length := by
  unfold recommendedIdx
  by_cases h1 : eps.length = 1
  · exact ⟨0, by simp [h1], by omega⟩
  · by_cases h2 : eps.any isDc && eps.any isRover
    · obtain ⟨j, hj, hlt⟩ := firstIdxWhere_isSome_of_exists isDc eps
        (by
          have := (Bool.and_eq_true _ _).mp h2
          exact List.any_eq_true.mp this.1)
      refine ⟨j, ?_, hlt⟩
      simp [h1, h2, hj]
    · have hne : eps.isEmpty = false := by
        cases eps with
        | nil => exact absurd rfl h
        | cons a rest => rfl
      refine ⟨0, ?_, ?_⟩
      · simp [h1, h2, hne]
      · cases eps with
        | nil => exact absurd rfl h
        | cons a rest => simp

/-- C6: for every non-empty list of confirmed endpoints, the
recommendation assignment at the end of `discover()` leaves exactly one
endpoint with `recommended = true`. -/
theorem discover_unique_recommended (eps : List YarboEndpoint) (h : eps ≠ []) :
    countRecommended (assignRecommended eps) = 1 := by
  obtain ⟨j, hj, hlt⟩ := recommendedIdx_some eps h
  simp only [assignRecommended, hj]
  rw [countRecommended_markFrom]
  have hcond : 0 ≤ j ∧ j < 0 + eps.length := ⟨Nat.zero_le j, by omega⟩
  rw [if_pos hcond]

/-- A sample confirmed rover endpoint. -/
def epRover : YarboEndpoint :=
  { ip := "192.168.1.24", port := 1883, path := "rover", mac := "c8:fe:0f:00:00:01",
    recommended := false, hostname := Option.none, sn := "SN77" }

/-- A sample confirmed DC endpoint. -/
def epDc : YarboEndpoint :=
  { ip := "192.168.1.55", port := 1883, path := "dc", mac := "9e:cd:0a:69:9e:58",
    recommended := false, hostname := Option.some "YARBO-DC", sn := "SN77" }

/-- Witness for C6 on a concrete two-endpoint scan result. -/
theorem discover_unique_recommended_witness :
    countRecommended (assignRecommended [epRover, epDc]) = 1 :=
  discover_unique_recommended [epRover, epDc] (by simp)

/-- Pulling the element at an in-range position to the front is a
permutation of the list. -/
theorem perm_getD_eraseIdx :
    ∀ (l : List YarboEndpoint) (j : Nat), j < l.length →
      (l.getD j default :: l.eraseIdx j).Perm l := by
  intro l
  induction l with
  | nil => intro j hj; simp at hj
  | cons a t ih =>
      intro j hj
      cases j with
      | zero => simp [List.eraseIdx]
      | succ k =>
          have hk : k < t.length := by simpa using hj
          have hperm := ih k hk
          have hswap : (t.getD k default :: a :: t.eraseIdx k).Perm
              (a :: t.getD k default :: t.eraseIdx k) := List.Perm.swap a _ _
          exact hswap.trans (hperm.cons a)

/-- C7: `connection_order` returns the same endpoints up to permutation,
with a recommended endpoint (when one exists) placed first; in particular,
given one confirmed rover and one confirmed DC endpoint from `discover()`,
the DC endpoint is placed first. -/
theorem connection_order_spec :
    (∀ eps : List YarboEndpoint, (connection_order eps).Perm eps) ∧
    (∀ eps : List YarboEndpoint, (∃ e ∈ eps, e.recommended = true) →
      ∃ e, (connection_order eps).head? = Option.some e ∧ e.recommended = true) ∧
    (∀ e1 e2 : YarboEndpoint, e1.path = "rover" → e2.path = "dc" →
      connection_order (assignRecommended [e1, e2]) =
        [{ e2 with recommended := true }, { e1 with recommended := false }]) := by
  refine ⟨?_, ?_, ?_⟩
  · intro eps
    unfold connection_order
    cases hf : firstIdxWhere (fun e => e.recommended) eps with
    | none => exact List.Perm.refl eps
    | some j =>
        obtain ⟨hlt, _⟩ := firstIdxWhere_some _ eps j hf
        exact perm_getD_eraseIdx eps j hlt
  · intro eps hex
    obtain ⟨j, hj, hlt⟩ := firstIdxWhere_isSome_of_exists (fun e => e.recommended) eps hex
    obtain ⟨_, hp⟩ := firstIdxWhere_some _ eps j hj
    refine ⟨eps.getD j default, ?_, hp⟩
    unfold connection_order
    rw [hj]
    rfl
  · intro e1 e2 h1 h2
    have hd1 : isDc e1 = false := by simp [isDc, h1]
    have hd2 : isDc e2 = true := by simp [isDc, h2]
    have hr1 : isRover e1 = true := by simp [isRover, h1]
    have hidx : recommendedIdx [e1, e2] = Option.some 1 := by
      simp [recommendedIdx, firstIdxWhere, hd1, hd2, hr1]
    have hmark : assignRecommended [e1, e2] =
        [{ e1 with recommended := false }, { e2 with recommended := true }] := by
      simp [assignRecommended, hidx, markRecommendedFrom]
    rw [hmark]
    simp [connection_order, firstIdxWhere, List.eraseIdx]

/-- Witness for C7: with the sample rover and DC endpoints, the DC
endpoint comes first in connection order. -/
theorem connection_order_spec_witness :
    connection_order (assignRecommended [epRover, epDc]) =
      [{ epDc with recommended := true }, { epRover with recommended := false }] :=
  connection_order_spec.2.2 epRover epDc rfl rfl

end Yarbo
